import Mathlib

/-!
Shallow embedding of the Address Directory Service (`src/main.py`): a CRUD
service over a single SQLite-backed `addresses` table, with a great-circle
distance filter.

Modelling conventions:
* JSON numeric payloads (Python floats) are modelled as rationals `ℚ`; the
  claims under study do not depend on floating-point rounding.
* The external geodesic distance function (`geopy.distance.geodesic(..).km`)
  is a black box: operations that use it take it as a parameter
  `dist : ℚ × ℚ → ℚ × ℚ → ℚ`.
* The persistent store (an SQLite table accessed through a SQLAlchemy
  session) is a list of rows in insertion order plus the id counter the
  store uses for assignment.
* A request body is a JSON object in which each field can be absent, be an
  explicit `null`, or carry a value; pydantic validation runs before any
  handler and is embedded by the `validate` functions below.
* `HTTPException(status_code, detail)` becomes the `Err` structure and
  fallible handlers return `Except Err _`.
-/

set_option autoImplicit false

namespace AddressBook

/-- A persisted row of the `addresses` table (SQLAlchemy model `Address`,
src/main.py lines 27-32). `latitude` and `longitude` are declared
`nullable=False`, so the embedding gives them total values of type `ℚ`;
`name` is only ever written from validated string payloads. -/
structure Address where
  id : Nat
  name : String
  latitude : ℚ
  longitude : ℚ
  deriving DecidableEq, Repr

/-- A JSON field of a request body: absent from the object, an explicit
`null`, or a value. -/
inductive JsonField (α : Type) where
  | absent : JsonField α
  | null : JsonField α
  | value : α → JsonField α
  deriving DecidableEq, Repr

/-- Validated create payload (pydantic model `AddressCreate`,
src/main.py lines 40-47): all three fields required, no constraint beyond
the type. -/
structure AddressCreate where
  name : String
  latitude : ℚ
  longitude : ℚ
  deriving DecidableEq, Repr

/-- Validated update payload (pydantic model `AddressUpdate`,
src/main.py lines 50-53): each field optional; `none` means the field was
not sent (`model_dump(exclude_unset=True)` drops it). -/
structure AddressUpdate where
  name : Option String
  latitude : Option ℚ
  longitude : Option ℚ
  deriving DecidableEq, Repr

/-- Raw JSON body of a create request, before validation. -/
structure RawAddressCreate where
  name : JsonField String
  latitude : JsonField ℚ
  longitude : JsonField ℚ
  deriving DecidableEq, Repr

/-- Raw JSON body of an update request, before validation. -/
structure RawAddressUpdate where
  name : JsonField String
  latitude : JsonField ℚ
  longitude : JsonField ℚ
  deriving DecidableEq, Repr

/-- Pydantic validation of a required field annotated with a non-optional
type: the field must be present with a value; `null` and absence are
validation errors. -/
def requiredField {α : Type} : JsonField α → Option α
  | .value a => some a
  | _ => none

/-- Pydantic-v2 validation of a defaulted field annotated with a
non-optional type (`name: str = None` and friends in `AddressUpdate`):
absence is allowed (field stays unset), a value is allowed, but an
explicit `null` is not a valid `str`/`float` and is rejected. -/
def unsetOrValue {α : Type} : JsonField α → Option (Option α)
  | .absent => some none
  | .null => none
  | .value a => some (some a)

/-- Validation of a create request body against `AddressCreate`. -/
def AddressCreate.validate (raw : RawAddressCreate) : Option AddressCreate :=
  match requiredField raw.name, requiredField raw.latitude,
      requiredField raw.longitude with
  | some n, some la, some lo => some ⟨n, la, lo⟩
  | _, _, _ => none

/-- Validation of an update request body against `AddressUpdate`. -/
def AddressUpdate.validate (raw : RawAddressUpdate) : Option AddressUpdate :=
  match unsetOrValue raw.name, unsetOrValue raw.latitude,
      unsetOrValue raw.longitude with
  | some n, some la, some lo => some ⟨n, la, lo⟩
  | _, _, _ => none

/-- An `HTTPException(status_code=..., detail=...)`. -/
structure Err where
  status : Nat
  detail : String
  deriving DecidableEq, Repr

/-- The `{"detail": "Address deleted"}` acknowledgement payload of the
delete endpoint. -/
structure DeleteAck where
  detail : String
  deriving DecidableEq, Repr

/-- The persistent store: the rows of the `addresses` table in insertion
order, plus the id the store will assign to the next inserted row.

Modelled from the spec: id assignment is performed by the store (SQLite
`INTEGER PRIMARY KEY`), which is external infrastructure not under `src/`;
following the spec's "id: system-assigned, unique, immutable" and "id
values are unique and never reused after deletion", it is embedded as a
monotone counter. -/
structure Store where
  nextId : Nat
  rows : List Address
  deriving DecidableEq, Repr

/-- The store created at startup: empty table, first id to assign is 1. -/
def emptyStore : Store := ⟨1, []⟩

/-- POST /addresses/ (`create_address`, src/main.py lines 73-80): insert a
new row built from the validated payload, let the store assign its id, and
return the persisted record (serialized as `AddressInDB`, status 201). -/
def create_address (s : Store) (a : AddressCreate) : Store × Address :=
  let db_address : Address :=
    { id := s.nextId, name := a.name
      latitude := a.latitude, longitude := a.longitude }
  ({ nextId := s.nextId + 1, rows := s.rows ++ [db_address] }, db_address)

/-- The `for key, value in update_data.items(): setattr(db_address, key, value)`
loop of `update_address`: apply each field present in the request
(`model_dump(exclude_unset=True)`) to the stored record, in field order. -/
def applyUpdate (u : AddressUpdate) (r : Address) : Address :=
  let r1 := match u.name with
    | some n => { r with name := n }
    | none => r
  let r2 := match u.latitude with
    | some la => { r1 with latitude := la }
    | none => r1
  match u.longitude with
  | some lo => { r2 with longitude := lo }
  | none => r2

/-- Mutating the first row matching an id in place (the committed effect of
`setattr` on the object returned by `.filter(Address.id == i).first()`). -/
def setRow (i : Nat) (r' : Address) : List Address → List Address
  | [] => []
  | r :: rs => if r.id = i then r' :: rs else r :: setRow i r' rs

/-- Removing the first row matching an id (the committed effect of
`db.delete` on the object returned by `.first()`). -/
def removeRow (i : Nat) : List Address → List Address
  | [] => []
  | r :: rs => if r.id = i then rs else r :: removeRow i rs

/-- PUT /addresses/{address_id} (`update_address`, src/main.py lines
84-97): look up the first row with the given id; 404 if none; otherwise
apply exactly the fields present in the payload and persist, returning the
updated record. -/
def update_address (s : Store) (address_id : Nat) (address : AddressUpdate) :
    Except Err (Store × Address) :=
  match s.rows.find? (fun r => r.id = address_id) with
  | none => .error ⟨404, "Address not found"⟩
  | some db_address =>
    let updated := applyUpdate address db_address
    .ok ({ s with rows := setRow address_id updated s.rows }, updated)

/-- DELETE /addresses/{address_id} (`delete_address`, src/main.py lines
101-109): look up the first row with the given id; 404 if none; otherwise
remove it and return `{"detail": "Address deleted"}`. -/
def delete_address (s : Store) (address_id : Nat) :
    Except Err (Store × DeleteAck) :=
  match s.rows.find? (fun r => r.id = address_id) with
  | none => .error ⟨404, "Address not found"⟩
  | some _ =>
    .ok ({ s with rows := removeRow address_id s.rows }, ⟨"Address deleted"⟩)

/-- GET /addresses/ (`get_addresses`, src/main.py lines 113-116): return
every persisted row, in store iteration order. -/
def get_addresses (s : Store) : List Address :=
  s.rows

/-- GET /addresses/within_distance/ (`get_addresses_within_distance`,
src/main.py lines 120-131): load all rows, keep those whose great-circle
distance from the reference point is at most `distance`. The geodesic
distance computation is the external parameter `dist`. -/
def get_addresses_within_distance (dist : ℚ × ℚ → ℚ × ℚ → ℚ) (s : Store)
    (latitude longitude distance : ℚ) : List Address :=
  (get_addresses s).filter
    (fun address =>
      dist (latitude, longitude) (address.latitude, address.longitude)
        ≤ distance)

/-- One inbound request, as far as the store is concerned. -/
inductive Op where
  | create : AddressCreate → Op
  | update : Nat → AddressUpdate → Op
  | delete : Nat → Op
  | list : Op
  | within : ℚ → ℚ → ℚ → Op
  deriving Repr

/-- The store after handling one request (a failed update or delete leaves
the store untouched; reads never write). -/
def applyOp (s : Store) : Op → Store
  | .create a => (create_address s a).1
  | .update i u =>
    match update_address s i u with
    | .ok (s', _) => s'
    | .error _ => s
  | .delete i =>
    match delete_address s i with
    | .ok (s', _) => s'
    | .error _ => s
  | .list => s
  | .within _ _ _ => s

/-- The store after handling a sequence of requests. -/
def applyTrace (s : Store) : List Op → Store
  | [] => s
  | op :: ops => applyTrace (applyOp s op) ops

/-- The ids assigned to records created during a trace, in order. -/
def createdIds (s : Store) : List Op → List Nat
  | [] => []
  | op :: ops =>
    (match op with
      | .create _ => [s.nextId]
      | _ => []) ++ createdIds (applyOp s op) ops

/-- Store well-formedness: row ids are pairwise distinct and below the
next id to assign. Holds for `emptyStore` and is preserved by every
operation. -/
def WF (s : Store) : Prop :=
  (s.rows.map (·.id)).Nodup ∧ ∀ r ∈ s.rows, r.id < s.nextId

/-! Helper lemmas about the embedded operations. -/

theorem applyUpdate_id (u : AddressUpdate) (r : Address) :
    (applyUpdate u r).id = r.id := by
  rcases u with ⟨n, la, lo⟩
  cases n <;> cases la <;> cases lo <;> rfl

theorem applyUpdate_name (u : AddressUpdate) (r : Address) :
    (applyUpdate u r).name = u.name.getD r.name := by
  rcases u with ⟨n, la, lo⟩
  cases n <;> cases la <;> cases lo <;> rfl

theorem applyUpdate_latitude (u : AddressUpdate) (r : Address) :
    (applyUpdate u r).latitude = u.latitude.getD r.latitude := by
  rcases u with ⟨n, la, lo⟩
  cases n <;> cases la <;> cases lo <;> rfl

theorem applyUpdate_longitude (u : AddressUpdate) (r : Address) :
    (applyUpdate u r).longitude = u.longitude.getD r.longitude := by
  rcases u with ⟨n, la, lo⟩
  cases n <;> cases la <;> cases lo <;> rfl

theorem find?_id_eq {l : List Address} {i : Nat} {r : Address}
    (h : l.find? (fun x => x.id = i) = some r) : r.id = i := by
  simpa using List.find?_some h

theorem find?_id_none {l : List Address} {i : Nat}
    (h : ∀ x ∈ l, x.id ≠ i) : l.find? (fun x => x.id = i) = none :=
  List.find?_eq_none.mpr (by simpa using h)

theorem setRow_map_id {i : Nat} {r' : Address} (h : r'.id = i) :
    ∀ l : List Address, (setRow i r' l).map (·.id) = l.map (·.id)
  | [] => rfl
  | r :: rs => by
    by_cases hr : r.id = i
    · simp [setRow, hr, h]
    · simp [setRow, hr, setRow_map_id h rs]

theorem find?_setRow {i : Nat} {r' : Address} (h : r'.id = i) :
    ∀ {l : List Address} {r : Address},
      l.find? (fun x => x.id = i) = some r →
      (setRow i r' l).find? (fun x => x.id = i) = some r'
  | a :: l, r, hf => by
    by_cases ha : a.id = i
    · simp [setRow, ha, List.find?, h]
    · have hf' : l.find? (fun x => x.id = i) = some r := by
        simpa [List.find?_cons, ha] using hf
      simp [setRow, ha, List.find?_cons, find?_setRow h hf']

theorem removeRow_sublist (i : Nat) :
    ∀ l : List Address, (removeRow i l).Sublist l
  | [] => List.Sublist.refl []
  | r :: rs => by
    by_cases hr : r.id = i
    · rw [removeRow, if_pos hr]; exact List.sublist_cons_self r rs
    · simpa [removeRow, hr] using (removeRow_sublist i rs).cons₂ r

theorem removeRow_id_ne {i : Nat} :
    ∀ {l : List Address}, (l.map (·.id)).Nodup →
      ∀ x ∈ removeRow i l, x.id ≠ i
  | [], _, x, hx => by simp [removeRow] at hx
  | r :: rs, hnd, x, hx => by
    rw [List.map_cons, List.nodup_cons] at hnd
    by_cases hr : r.id = i
    · rw [removeRow, if_pos hr] at hx
      intro hxi
      exact hnd.1 (hr ▸ hxi ▸ List.mem_map_of_mem (·.id) hx)
    · rw [removeRow, if_neg hr] at hx
      rcases List.mem_cons.mp hx with hx | hx
      · simpa [hx] using hr
      · exact removeRow_id_ne hnd.2 x hx

theorem update_ok_inv {s : Store} {i : Nat} {u : AddressUpdate}
    {s' : Store} {r' : Address}
    (h : update_address s i u = .ok (s', r')) :
    ∃ r, s.rows.find? (fun x => x.id = i) = some r ∧
      r' = applyUpdate u r ∧
      s' = { s with rows := setRow i r' s.rows } := by
  unfold update_address at h
  cases hf : s.rows.find? (fun x => x.id = i) with
  | none => rw [hf] at h; exact absurd h (by simp)
  | some r =>
    rw [hf] at h
    simp only [Except.ok.injEq, Prod.mk.injEq] at h
    exact ⟨r, rfl, h.2.symm, by rw [← h.1, h.2]⟩

theorem update_err_inv {s : Store} {i : Nat} {u : AddressUpdate} {e : Err}
    (h : update_address s i u = .error e) :
    s.rows.find? (fun x => x.id = i) = none ∧ e = ⟨404, "Address not found"⟩ := by
  unfold update_address at h
  cases hf : s.rows.find? (fun x => x.id = i) with
  | none => rw [hf] at h; exact ⟨rfl, by simpa using h.symm⟩
  | some r => rw [hf] at h; exact absurd h (by simp)

theorem delete_ok_inv {s : Store} {i : Nat} {s' : Store} {ack : DeleteAck}
    (h : delete_address s i = .ok (s', ack)) :
    (∃ r, s.rows.find? (fun x => x.id = i) = some r) ∧
      s' = { s with rows := removeRow i s.rows } ∧ ack = ⟨"Address deleted"⟩ := by
  unfold delete_address at h
  cases hf : s.rows.find? (fun x => x.id = i) with
  | none => rw [hf] at h; exact absurd h (by simp)
  | some r =>
    rw [hf] at h
    simp only [Except.ok.injEq, Prod.mk.injEq] at h
    exact ⟨⟨r, rfl⟩, h.1.symm, h.2.symm⟩

theorem update_ok_map_id {s : Store} {i : Nat} {u : AddressUpdate}
    {s' : Store} {r' : Address}
    (h : update_address s i u = .ok (s', r')) :
    s'.rows.map (·.id) = s.rows.map (·.id) ∧ r'.id = i := by
  obtain ⟨r, hf, hr', hs'⟩ := update_ok_inv h
  have hid : r'.id = i := by rw [hr', applyUpdate_id]; exact find?_id_eq hf
  exact ⟨by rw [hs']; exact setRow_map_id hid s.rows, hid⟩

theorem applyOp_nextId_le (s : Store) (op : Op) :
    s.nextId ≤ (applyOp s op).nextId := by
  cases op with
  | create a => exact Nat.le_succ _
  | update i u =>
    show s.nextId ≤ (match update_address s i u with
      | .ok (s', _) => s'
      | .error _ => s).nextId
    cases h : update_address s i u with
    | ok v =>
      obtain ⟨s', r'⟩ := v
      obtain ⟨r, _, _, hs'⟩ := update_ok_inv h
      simp [hs']
    | error e => exact Nat.le_refl _
  | delete i =>
    show s.nextId ≤ (match delete_address s i with
      | .ok (s', _) => s'
      | .error _ => s).nextId
    cases h : delete_address s i with
    | ok v =>
      obtain ⟨s', ack⟩ := v
      obtain ⟨_, hs', _⟩ := delete_ok_inv h
      simp [hs']
    | error e => exact Nat.le_refl _
  | list => exact Nat.le_refl _
  | within lat lon d => exact Nat.le_refl _

/-- The invariant behind "a deleted id never comes back": once no row
carries id `i` and `i` is below the store's next id, every later operation
keeps it that way. -/
def idGone (i : Nat) (s : Store) : Prop :=
  (∀ x ∈ s.rows, x.id ≠ i) ∧ i < s.nextId

theorem idGone_applyOp {i : Nat} {s : Store} (h : idGone i s) (op : Op) :
    idGone i (applyOp s op) := by
  obtain ⟨hrows, hlt⟩ := h
  cases op with
  | create a =>
    refine ⟨?_, Nat.lt_succ_of_lt hlt⟩
    intro x hx
    rcases List.mem_append.mp hx with hx | hx
    · exact hrows x hx
    · rcases List.mem_singleton.mp hx with rfl
      exact Nat.ne_of_gt hlt
  | update j u =>
    show idGone i (match update_address s j u with
      | .ok (s', _) => s'
      | .error _ => s)
    cases hup : update_address s j u with
    | ok v =>
      obtain ⟨s', r'⟩ := v
      obtain ⟨hmap, _⟩ := update_ok_map_id hup
      refine ⟨?_, ?_⟩
      · intro x hx hxi
        have : x.id ∈ s'.rows.map (·.id) := List.mem_map_of_mem (·.id) hx
        rw [hmap] at this
        obtain ⟨y, hy, hyx⟩ := List.mem_map.mp this
        exact hrows y hy (hyx.trans hxi)
      · obtain ⟨r, _, _, hs'⟩ := update_ok_inv hup
        rw [hs']
        exact hlt
    | error e => exact ⟨hrows, hlt⟩
  | delete j =>
    show idGone i (match delete_address s j with
      | .ok (s', _) => s'
      | .error _ => s)
    cases hdel : delete_address s j with
    | ok v =>
      obtain ⟨s', ack⟩ := v
      obtain ⟨_, hs', _⟩ := delete_ok_inv hdel
      rw [hs']
      exact ⟨fun x hx => hrows x ((removeRow_sublist j s.rows).subset hx), hlt⟩
    | error e => exact ⟨hrows, hlt⟩
  | list => exact ⟨hrows, hlt⟩
  | within lat lon d => exact ⟨hrows, hlt⟩

theorem idGone_applyTrace {i : Nat} :
    ∀ {s : Store}, idGone i s → ∀ ops : List Op, idGone i (applyTrace s ops)
  | _, h, [] => h
  | _, h, op :: ops => idGone_applyTrace (idGone_applyOp h op) ops

theorem createdIds_lb :
    ∀ (ops : List Op) (s : Store), ∀ j ∈ createdIds s ops, s.nextId ≤ j
  | [], _, j, hj => by simp [createdIds] at hj
  | op :: ops, s, j, hj => by
    have hrest := createdIds_lb ops (applyOp s op)
    have hmono := applyOp_nextId_le s op
    cases op with
    | create a =>
      simp only [createdIds, List.cons_append, List.nil_append,
        List.mem_cons] at hj
      rcases hj with hj | hj
      · exact hj.ge
      · exact le_trans hmono (hrest j hj)
    | update i u =>
      simp only [createdIds, List.nil_append] at hj
      exact le_trans hmono (hrest j hj)
    | delete i =>
      simp only [createdIds, List.nil_append] at hj
      exact le_trans hmono (hrest j hj)
    | list =>
      simp only [createdIds, List.nil_append] at hj
      exact le_trans hmono (hrest j hj)
    | within lat lon d =>
      simp only [createdIds, List.nil_append] at hj
      exact le_trans hmono (hrest j hj)

/-! Claim theorems. -/

/-- C1: Update(id, partial) applies exactly the fields explicitly present
in the request payload to the stored record and leaves every omitted field
unchanged; the updated record is what the store then persists under that
id. -/
theorem update_applies_exactly_present_fields
    (s : Store) (i : Nat) (u : AddressUpdate) (s' : Store) (r' r : Address)
    (hup : update_address s i u = .ok (s', r'))
    (hfind : s.rows.find? (fun x => x.id = i) = some r) :
    r'.id = r.id ∧
    r'.name = u.name.getD r.name ∧
    r'.latitude = u.latitude.getD r.latitude ∧
    r'.longitude = u.longitude.getD r.longitude ∧
    s'.rows.find? (fun x => x.id = i) = some r' := by
  obtain ⟨r₀, hf₀, hr', hs'⟩ := update_ok_inv hup
  rw [hfind] at hf₀
  obtain rfl : r = r₀ := Option.some.inj hf₀
  have hid : r'.id = i := by rw [hr', applyUpdate_id]; exact find?_id_eq hfind
  refine ⟨?_, ?_, ?_, ?_, ?_⟩
  · rw [hr', applyUpdate_id]
  · rw [hr', applyUpdate_name]
  · rw [hr', applyUpdate_latitude]
  · rw [hr', applyUpdate_longitude]
  · rw [hs']
    exact find?_setRow hid hfind

/-- C1 witness: Create(name:"Home", latitude:40, longitude:-73) followed by
Update(id, {latitude:41}) yields latitude 41, longitude -73, name "Home". -/
theorem update_applies_exactly_present_fields_witness :
    (create_address emptyStore ⟨"Home", 40, -73⟩).1 = ⟨2, [⟨1, "Home", 40, -73⟩]⟩ ∧
    update_address ⟨2, [⟨1, "Home", 40, -73⟩]⟩ 1 ⟨none, some 41, none⟩ =
      .ok (⟨2, [⟨1, "Home", 41, -73⟩]⟩, ⟨1, "Home", 41, -73⟩) ∧
    ((⟨1, "Home", 41, -73⟩ : Address).id = (⟨1, "Home", 40, -73⟩ : Address).id ∧
      (⟨1, "Home", 41, -73⟩ : Address).name =
        (none : Option String).getD (⟨1, "Home", 40, -73⟩ : Address).name ∧
      (⟨1, "Home", 41, -73⟩ : Address).latitude =
        (some (41 : ℚ)).getD (⟨1, "Home", 40, -73⟩ : Address).latitude ∧
      (⟨1, "Home", 41, -73⟩ : Address).longitude =
        (none : Option ℚ).getD (⟨1, "Home", 40, -73⟩ : Address).longitude ∧
      (Store.mk 2 [⟨1, "Home", 41, -73⟩]).rows.find? (fun x => x.id = 1) =
        some ⟨1, "Home", 41, -73⟩) :=
  ⟨by decide, rfl,
    update_applies_exactly_present_fields ⟨2, [⟨1, "Home", 40, -73⟩]⟩ 1
      ⟨none, some 41, none⟩ ⟨2, [⟨1, "Home", 41, -73⟩]⟩ ⟨1, "Home", 41, -73⟩
      ⟨1, "Home", 40, -73⟩ rfl (by decide)⟩

/-- C2: WithinDistance returns exactly the persisted records whose
distance from the reference point is at most the bound: membership in the
result is equivalent to membership in the store together with
distance ≤ bound, so a record at distance exactly the bound is included
and one strictly beyond it is excluded. -/
theorem within_distance_exact_inclusive
    (dist : ℚ × ℚ → ℚ × ℚ → ℚ) (s : Store) (lat lon d : ℚ) (a : Address) :
    a ∈ get_addresses_within_distance dist s lat lon d ↔
      a ∈ get_addresses s ∧ dist (lat, lon) (a.latitude, a.longitude) ≤ d := by
  simp [get_addresses_within_distance, get_addresses, List.mem_filter]

/-- C3: updating a nonexistent id fails with 404 "Address not found" and
leaves the store unchanged. -/
theorem update_missing_id_not_found
    (s : Store) (i : Nat) (u : AddressUpdate)
    (h : ∀ r ∈ s.rows, r.id ≠ i) :
    update_address s i u = .error ⟨404, "Address not found"⟩ ∧
      applyOp s (.update i u) = s := by
  have hf := find?_id_none h
  have herr : update_address s i u = .error ⟨404, "Address not found"⟩ := by
    unfold update_address
    rw [hf]
  refine ⟨herr, ?_⟩
  show (match update_address s i u with
    | .ok (s', _) => s'
    | .error _ => s) = s
  rw [herr]

/-- C3 witness: updating id 7 in the empty store fails with 404 and
changes nothing. -/
theorem update_missing_id_not_found_witness :
    (∀ r ∈ emptyStore.rows, r.id ≠ 7) ∧
    (update_address emptyStore 7 ⟨some "X", none, none⟩ =
        .error ⟨404, "Address not found"⟩ ∧
      applyOp emptyStore (.update 7 ⟨some "X", none, none⟩) = emptyStore) :=
  ⟨by decide, update_missing_id_not_found emptyStore 7 ⟨some "X", none, none⟩
    (by decide)⟩

/-- C7: create validates only presence and type of the fields, never their
range: any rational latitude/longitude pass validation and the created row
persists exactly the supplied values. -/
theorem create_no_range_validation (s : Store) (n : String) (la lo : ℚ) :
    AddressCreate.validate ⟨.value n, .value la, .value lo⟩ = some ⟨n, la, lo⟩ ∧
    (create_address s ⟨n, la, lo⟩).2.name = n ∧
    (create_address s ⟨n, la, lo⟩).2.latitude = la ∧
    (create_address s ⟨n, la, lo⟩).2.longitude = lo ∧
    (create_address s ⟨n, la, lo⟩).2 ∈ (create_address s ⟨n, la, lo⟩).1.rows := by
  refine ⟨rfl, rfl, rfl, rfl, ?_⟩
  simp [create_address]

/-- C4: create inserts a new row, the store assigns its id, the returned
record is the persisted one (assigned id plus exactly the supplied
fields), and ListAll on the new store contains it exactly once. -/
theorem create_assigns_id_and_appears_once (s : Store) (a : AddressCreate)
    (h : WF s) :
    ((create_address s a).2).id = s.nextId ∧
    ((create_address s a).2).name = a.name ∧
    ((create_address s a).2).latitude = a.latitude ∧
    ((create_address s a).2).longitude = a.longitude ∧
    (get_addresses (create_address s a).1).count ((create_address s a).2) = 1 := by
  refine ⟨rfl, rfl, rfl, rfl, ?_⟩
  have hnotmem : (create_address s a).2 ∉ s.rows := by
    intro hmem
    have h2 := h.2 _ hmem
    have hid : (create_address s a).2.id = s.nextId := rfl
    omega
  show (s.rows ++ [(create_address s a).2]).count (create_address s a).2 = 1
  rw [List.count_append, List.count_eq_zero.mpr hnotmem]
  simp

/-- C4 witness: creating in a well-formed one-row store assigns id 2 and
the new record appears exactly once in ListAll. -/
theorem create_assigns_id_and_appears_once_witness :
    WF ⟨2, [⟨1, "A", 0, 0⟩]⟩ ∧
    (((create_address ⟨2, [⟨1, "A", 0, 0⟩]⟩ ⟨"B", 100, 200⟩).2).id = 2 ∧
      ((create_address ⟨2, [⟨1, "A", 0, 0⟩]⟩ ⟨"B", 100, 200⟩).2).name = "B" ∧
      ((create_address ⟨2, [⟨1, "A", 0, 0⟩]⟩ ⟨"B", 100, 200⟩).2).latitude = 100 ∧
      ((create_address ⟨2, [⟨1, "A", 0, 0⟩]⟩ ⟨"B", 100, 200⟩).2).longitude = 200 ∧
      (get_addresses (create_address ⟨2, [⟨1, "A", 0, 0⟩]⟩ ⟨"B", 100, 200⟩).1).count
        ((create_address ⟨2, [⟨1, "A", 0, 0⟩]⟩ ⟨"B", 100, 200⟩).2) = 1) :=
  ⟨⟨by decide, by decide⟩,
    create_assigns_id_and_appears_once ⟨2, [⟨1, "A", 0, 0⟩]⟩ ⟨"B", 100, 200⟩
      ⟨by decide, by decide⟩⟩

/-- C5: deleting a nonexistent id fails with 404 and leaves the store
unchanged; deleting an existing record succeeds with the
{"detail": "Address deleted"} payload and the record's id is absent from
ListAll after every subsequent sequence of operations. -/
theorem delete_semantics :
    (∀ (s : Store) (i : Nat), (∀ r ∈ s.rows, r.id ≠ i) →
      delete_address s i = .error ⟨404, "Address not found"⟩ ∧
        applyOp s (.delete i) = s) ∧
    (∀ (s : Store) (r : Address), WF s → r ∈ s.rows →
      ∃ s', delete_address s r.id = .ok (s', ⟨"Address deleted"⟩) ∧
        ∀ ops : List Op, ∀ x ∈ get_addresses (applyTrace s' ops), x.id ≠ r.id) := by
  constructor
  · intro s i h
    have hf := find?_id_none h
    have herr : delete_address s i = .error ⟨404, "Address not found"⟩ := by
      unfold delete_address
      rw [hf]
    refine ⟨herr, ?_⟩
    show (match delete_address s i with
      | .ok (s', _) => s'
      | .error _ => s) = s
    rw [herr]
  · intro s r hwf hmem
    have hsome : (s.rows.find? (fun x => x.id = r.id)).isSome :=
      List.find?_isSome.mpr ⟨r, hmem, by simp⟩
    refine ⟨{ s with rows := removeRow r.id s.rows }, ?_, ?_⟩
    · unfold delete_address
      cases hf : s.rows.find? (fun x => x.id = r.id) with
      | none => rw [hf] at hsome; exact absurd hsome (by simp)
      | some r₀ => rfl
    · have hstart : idGone r.id { s with rows := removeRow r.id s.rows } :=
        ⟨removeRow_id_ne hwf.1, hwf.2 r hmem⟩
      intro ops x hx
      exact (idGone_applyTrace hstart ops).1 x hx

/-- C5 witness: delete of id 3 on the empty store is a 404 no-op; delete
of the only record of a one-row store succeeds and its id never appears in
any later ListAll. -/
theorem delete_semantics_witness :
    (∀ r ∈ emptyStore.rows, r.id ≠ 3) ∧
    (delete_address emptyStore 3 = .error ⟨404, "Address not found"⟩ ∧
      applyOp emptyStore (.delete 3) = emptyStore) ∧
    WF ⟨2, [⟨1, "A", 0, 0⟩]⟩ ∧
    (⟨1, "A", 0, 0⟩ : Address) ∈ (Store.mk 2 [⟨1, "A", 0, 0⟩]).rows ∧
    (∃ s', delete_address ⟨2, [⟨1, "A", 0, 0⟩]⟩ (⟨1, "A", 0, 0⟩ : Address).id =
        .ok (s', ⟨"Address deleted"⟩) ∧
      ∀ ops : List Op, ∀ x ∈ get_addresses (applyTrace s' ops),
        x.id ≠ (⟨1, "A", 0, 0⟩ : Address).id) :=
  ⟨by decide, delete_semantics.1 emptyStore 3 (by decide),
    ⟨by decide, by decide⟩, by decide,
    delete_semantics.2 ⟨2, [⟨1, "A", 0, 0⟩]⟩ ⟨1, "A", 0, 0⟩
      ⟨by decide, by decide⟩ (by decide)⟩

/-- C6: across any sequence of operations the ids assigned to created
records are pairwise distinct, and an id carried by any record of a
well-formed store (in particular one later deleted) is never assigned to a
record created afterwards. -/
theorem created_ids_unique_never_reused :
    (∀ (s : Store) (ops : List Op), (createdIds s ops).Nodup) ∧
    (∀ (s : Store) (r : Address) (ops : List Op), WF s → r ∈ s.rows →
      r.id ∉ createdIds s ops) := by
  constructor
  · intro s ops
    induction ops generalizing s with
    | nil => simp [createdIds]
    | cons op ops ih =>
      cases op with
      | create a =>
        simp only [createdIds, List.cons_append, List.nil_append]
        refine List.nodup_cons.mpr ⟨?_, ih _⟩
        intro hmem
        have hlb := createdIds_lb ops (applyOp s (.create a)) _ hmem
        have hnext : (applyOp s (.create a)).nextId = s.nextId + 1 := rfl
        omega
      | update i u => simpa only [createdIds, List.nil_append] using ih _
      | delete i => simpa only [createdIds, List.nil_append] using ih _
      | list => simpa only [createdIds, List.nil_append] using ih _
      | within lat lon d => simpa only [createdIds, List.nil_append] using ih _
  · intro s r ops hwf hmem hin
    have hlb := createdIds_lb ops s _ hin
    have hlt := hwf.2 r hmem
    omega

/-- C6 witness: in a well-formed store holding id 1, deleting that record
and creating a new one assigns id 2, not the freed id 1. -/
theorem created_ids_unique_never_reused_witness :
    WF ⟨2, [⟨1, "A", 0, 0⟩]⟩ ∧
    (⟨1, "A", 0, 0⟩ : Address) ∈ (Store.mk 2 [⟨1, "A", 0, 0⟩]).rows ∧
    (⟨1, "A", 0, 0⟩ : Address).id ∉
      createdIds ⟨2, [⟨1, "A", 0, 0⟩]⟩ [.delete 1, .create ⟨"B", 5, 5⟩] :=
  ⟨⟨by decide, by decide⟩, by decide,
    created_ids_unique_never_reused.2 ⟨2, [⟨1, "A", 0, 0⟩]⟩ ⟨1, "A", 0, 0⟩
      [.delete 1, .create ⟨"B", 5, 5⟩] ⟨by decide, by decide⟩ (by decide)⟩

/-- C8: a record's id is assigned at creation and never changes
afterwards: create appends exactly the new id, a successful update leaves
the stored id sequence untouched, and delete only removes ids (the
latitude/longitude columns are `nullable=False`, which the embedding
reflects by giving every persisted row total rational coordinates). -/
theorem id_immutable_across_ops :
    (∀ (s : Store) (a : AddressCreate),
      ((create_address s a).2).id = s.nextId ∧
      (create_address s a).1.rows.map (·.id) = s.rows.map (·.id) ++ [s.nextId]) ∧
    (∀ (s : Store) (i : Nat) (u : AddressUpdate) (s' : Store) (r' : Address),
      update_address s i u = .ok (s', r') →
      s'.rows.map (·.id) = s.rows.map (·.id) ∧ r'.id = i) ∧
    (∀ (s : Store) (i : Nat) (s' : Store) (ack : DeleteAck),
      delete_address s i = .ok (s', ack) →
      (s'.rows.map (·.id)).Sublist (s.rows.map (·.id))) := by
  refine ⟨?_, ?_, ?_⟩
  · intro s a
    exact ⟨rfl, by simp [create_address]⟩
  · intro s i u s' r' h
    exact update_ok_map_id h
  · intro s i s' ack h
    obtain ⟨_, hs', _⟩ := delete_ok_inv h
    rw [hs']
    exact (removeRow_sublist i s.rows).map (·.id)

/-- C8 witness: updating the name of the only record keeps the id
sequence [1]; deleting it removes the id without renumbering. -/
theorem id_immutable_across_ops_witness :
    update_address ⟨2, [⟨1, "A", 0, 0⟩]⟩ 1 ⟨some "B", none, none⟩ =
      .ok (⟨2, [⟨1, "B", 0, 0⟩]⟩, ⟨1, "B", 0, 0⟩) ∧
    ((Store.mk 2 [⟨1, "B", 0, 0⟩]).rows.map (·.id) =
        (Store.mk 2 [⟨1, "A", 0, 0⟩]).rows.map (·.id) ∧
      (⟨1, "B", 0, 0⟩ : Address).id = 1) ∧
    delete_address ⟨2, [⟨1, "A", 0, 0⟩]⟩ 1 = .ok (⟨2, []⟩, ⟨"Address deleted"⟩) ∧
    ((Store.mk 2 ([] : List Address)).rows.map (·.id)).Sublist
      ((Store.mk 2 [⟨1, "A", 0, 0⟩]).rows.map (·.id)) :=
  ⟨rfl, id_immutable_across_ops.2.1 ⟨2, [⟨1, "A", 0, 0⟩]⟩ 1 ⟨some "B", none, none⟩
      ⟨2, [⟨1, "B", 0, 0⟩]⟩ ⟨1, "B", 0, 0⟩ rfl,
    rfl, id_immutable_across_ops.2.2 ⟨2, [⟨1, "A", 0, 0⟩]⟩ 1 ⟨2, []⟩
      ⟨"Address deleted"⟩ rfl⟩

/-- C9: an update payload that sets any field to an explicit null fails
validation (so the handler, and hence the store, is never reached with a
null field). -/
theorem update_null_field_rejected
    (raw : RawAddressUpdate)
    (h : raw.name = .null ∨ raw.latitude = .null ∨ raw.longitude = .null) :
    AddressUpdate.validate raw = none := by
  rcases raw with ⟨n, la, lo⟩
  rcases h with h | h | h
  · cases h
    cases la <;> cases lo <;> rfl
  · cases h
    cases n <;> cases lo <;> rfl
  · cases h
    cases n <;> cases la <;> rfl

/-- C9 witness: {"name": null} (other fields absent) fails validation. -/
theorem update_null_field_rejected_witness :
    ((RawAddressUpdate.mk .null .absent (.value 5)).name = .null ∨
      (RawAddressUpdate.mk .null .absent (.value 5)).latitude = .null ∨
      (RawAddressUpdate.mk .null .absent (.value 5)).longitude = .null) ∧
    AddressUpdate.validate ⟨.null, .absent, .value 5⟩ = none :=
  ⟨Or.inl rfl, update_null_field_rejected ⟨.null, .absent, .value 5⟩ (Or.inl rfl)⟩

/-- C10: the records returned by WithinDistance form a sublist of the
records returned by ListAll on the same store: same order, no
duplication, no reordering. -/
theorem within_distance_sublist_list_all
    (dist : ℚ × ℚ → ℚ × ℚ → ℚ) (s : Store) (lat lon d : ℚ) :
    (get_addresses_within_distance dist s lat lon d).Sublist (get_addresses s) :=
  List.filter_sublist (get_addresses s)

end AddressBook
